import Mathlib

/-
  Verification development for the FormShell repository.

  Shallow embedding of the field-validation hierarchy
  (src/src/formshell/field-types.ts) and the step-navigation state machine
  (src/src/formshell/form-framework.ts) into Lean, together with theorems
  settling the specification claims about them.

  Modelling conventions:
  - JavaScript numbers are modelled by the type JsNum below: NaN, the two
    infinities, and finite values as rationals.  All finite values arising
    in the claims are exactly representable.
  - JavaScript null and undefined are both modelled by Value.vNull; on every
    code path exercised here the two behave identically (both are caught by
    the required check or the falsiness check before any coercion that
    would distinguish them).
  - A thrown JavaScript exception is modelled by Option: a function returns
    none exactly when the corresponding TypeScript code throws.
  - The whitespace set used for trimming and token splitting models the
    common JavaScript whitespace characters space, tab, newline and
    carriage return; the claims only exercise these.
-/

namespace FS

/-- Model of a JavaScript number: NaN, infinities, or a finite rational. -/
inductive JsNum where
  | nan
  | posInf
  | negInf
  | fin (q : ℚ)
  deriving DecidableEq

/-- Model of the TypeScript FieldValue union
    (string | number | boolean | string[] | null, with undefined folded
    into vNull as explained in the header). -/
inductive Value where
  | vNull
  | vStr (s : String)
  | vNum (n : JsNum)
  | vBool (b : Bool)
  | vList (l : List String)
  deriving DecidableEq

/-- JavaScript strict less-than on numbers: false whenever NaN is involved. -/
def jsLt : JsNum → JsNum → Bool
  | .fin a, .fin b => a < b
  | .negInf, .fin _ => true
  | .negInf, .posInf => true
  | .fin _, .posInf => true
  | _, _ => false

/-- JavaScript greater-than. -/
def jsGt (a b : JsNum) : Bool := jsLt b a

/-- JavaScript greater-or-equal: false whenever NaN is involved. -/
def jsGe : JsNum → JsNum → Bool
  | .nan, _ => false
  | _, .nan => false
  | a, b => !(jsLt a b)

/-- JavaScript less-or-equal. -/
def jsLe (a b : JsNum) : Bool := jsGe b a

/-- Subtraction of one, as used for the index = value - 1 computations.
    On finite values the result is (num - den)/den, which equals q - 1
    (lemma jsSubOne_fin below); it is written with mkRat so that concrete
    instances evaluate inside the kernel. -/
def jsSubOne : JsNum → JsNum
  | .nan => .nan
  | .posInf => .posInf
  | .negInf => .negInf
  | .fin q => .fin (mkRat (q.num - q.den) q.den)

/-- Number.isInteger: true only for finite integral values. -/
def isIntegerJ : JsNum → Bool
  | .fin q => q.den == 1
  | _ => false

/-- JavaScript truthiness test, negated: the falsy values among FieldValue
    are null/undefined, the empty string, 0, NaN and false.  Arrays are
    always truthy. -/
def falsy : Value → Bool
  | .vNull => true
  | .vStr s => s == ""
  | .vNum n => n == .nan || n == .fin 0
  | .vBool b => !b
  | .vList _ => false

/-- Whitespace characters recognised for trimming and splitting. -/
def isWsChar (c : Char) : Bool := c == ' ' || c == '\t' || c == '\n' || c == '\r'

/-- Drop whitespace from both ends of a character list (String.prototype.trim). -/
def trimChars (l : List Char) : List Char :=
  ((l.dropWhile isWsChar).reverse.dropWhile isWsChar).reverse

/-- Numeric value of a list of decimal digit characters. -/
def digitsVal (l : List Char) : Nat :=
  l.foldl (fun a c => 10 * a + (c.toNat - '0'.toNat)) 0

/-- Split a character list at the first dot, if any. -/
def splitAtDot : List Char → List Char × Option (List Char)
  | [] => ([], none)
  | c :: rest =>
    if c == '.' then ([], some rest)
    else
      let (a, b) := splitAtDot rest
      (c :: a, b)

/-- Parse an unsigned decimal numeral, with an optional fractional part
    (accepting the JavaScript forms 12, 12., .5, 1.5). -/
def parseUnsigned (l : List Char) : Option ℚ :=
  let (a, rest) := splitAtDot l
  match rest with
  | none =>
    if !a.isEmpty && a.all Char.isDigit then some ((digitsVal a : ℚ)) else none
  | some b =>
    if (!a.isEmpty || !b.isEmpty) && a.all Char.isDigit && b.all Char.isDigit
        && !(b.contains '.') then
      some (mkRat (digitsVal a * 10 ^ b.length + digitsVal b) (10 ^ b.length))
    else none

/-- Model of the JavaScript Number(string) coercion, covering trimmed decimal
    numerals, signed numerals, Infinity literals and the empty string; other
    numeric syntaxes (hexadecimal, exponents) are outside the modelled
    fragment and map to NaN, as do all non-numeric strings. -/
def strToNumber (s : String) : JsNum :=
  let l := trimChars s.data
  if l.isEmpty then .fin 0
  else if l == "Infinity".data || l == "+Infinity".data then .posInf
  else if l == "-Infinity".data then .negInf
  else
    match l with
    | '+' :: rest =>
      match parseUnsigned rest with
      | some q => .fin q
      | none => .nan
    | '-' :: rest =>
      match parseUnsigned rest with
      | some q => .fin (-q)
      | none => .nan
    | _ =>
      match parseUnsigned l with
      | some q => .fin q
      | none => .nan

/-- Model of the JavaScript Number(value) coercion on FieldValue. -/
def jsToNumber : Value → JsNum
  | .vNull => .fin 0
  | .vBool b => .fin (if b then 1 else 0)
  | .vNum n => n
  | .vStr s => strToNumber s
  | .vList [] => .fin 0
  | .vList [s] => strToNumber s
  | .vList _ => .nan

/-- Rendering of a rational in a template literal; exact for the integral
    values that occur in every verified claim. -/
def qRender (q : ℚ) : String :=
  if q.den = 1 then toString q.num else toString q.num ++ "/" ++ toString q.den

/-- Rendering of a JavaScript number in a template literal. -/
def jsNumRender : JsNum → String
  | .nan => "NaN"
  | .posInf => "Infinity"
  | .negInf => "-Infinity"
  | .fin q => qRender q

/-- Rendering of a nullable number in a template literal. -/
def qRenderOpt : Option ℚ → String
  | some m => qRender m
  | none => "null"

/-- Model of the JavaScript String(value) coercion on FieldValue. -/
def jsToString : Value → String
  | .vStr s => s
  | .vNull => "null"
  | .vBool b => if b then "true" else "false"
  | .vNum n => jsNumRender n
  | .vList l => String.intercalate "," l

/-- An option of a Choice or MultipleChoice field: either a bare string or a
    value/label pair. -/
inductive JsOpt where
  | plain (s : String)
  | labeled (value : String) (label : String)
  deriving DecidableEq

/-- The stored value of an option. -/
def optValue : JsOpt → String
  | .plain s => s
  | .labeled v _ => v

/-- Array access with a JavaScript numeric index: yields undefined (none)
    for fractional, negative, out-of-range, NaN or infinite indices. -/
def arrGetNum {α : Type} (l : List α) : JsNum → Option α
  | .fin q =>
    if q.den = 1 ∧ 0 ≤ q.num ∧ q.num < l.length then l.get? q.num.toNat else none
  | _ => none

/-- The field type tags of the FieldFactory. -/
inductive FieldKind where
  | text
  | number
  | email
  | url
  | date
  | choice
  | multipleChoice
  | rating
  | yesNo
  deriving DecidableEq

/-- Collected form data: a map from field id to current value, with absent
    entries reading as undefined (vNull). -/
abbrev FormData := String → Value

/-- A field instance: the merged state of the BaseField hierarchy.  Slots
    not used by a given kind (for example options on a text field) are
    inert, mirroring the subclass layout. -/
structure Field where
  kind : FieldKind
  id : String
  required : Bool
  value : Value
  error : Option String
  condition : Option (FormData → Bool)
  minLength : Option Nat
  maxLength : Option Nat
  pattern : Option (String → Bool)
  min : Option ℚ
  max : Option ℚ
  integer : Bool
  options : List JsOpt
  minChoices : Nat
  maxChoices : Nat

/-- Result of a field validation. -/
inductive VResult where
  | ok
  | err (reason : String)
  deriving DecidableEq

/-- The BaseField required test: value === null, undefined, or the empty
    string, on a required field. -/
def requiredMissing (f : Field) (v : Value) : Bool :=
  f.required && (v == .vNull || v == .vStr "")

/-- BaseField.validate. -/
def baseValidate (f : Field) (v : Value) : VResult :=
  if requiredMissing f v then .err "This field is required" else .ok

/-- TextField pattern check (a configured RegExp object is always truthy). -/
def patCheck (f : Field) (s : String) : VResult :=
  match f.pattern with
  | some p => if p s then .ok else .err "Invalid format"
  | none => .ok

/-- TextField maximum length check; a zero maxLength is falsy and skipped. -/
def maxLenCheck (f : Field) (s : String) : VResult :=
  match f.maxLength with
  | some n =>
    if n != 0 && decide (n < s.length) then
      .err ("Maximum " ++ toString n ++ " characters allowed")
    else patCheck f s
  | none => patCheck f s

/-- TextField minimum length check; a zero minLength is falsy and skipped. -/
def minLenCheck (f : Field) (s : String) : VResult :=
  match f.minLength with
  | some n =>
    if n != 0 && decide (s.length < n) then
      .err ("Minimum " ++ toString n ++ " characters required")
    else maxLenCheck f s
  | none => maxLenCheck f s

/-- TextField.validate. -/
def textValidate (f : Field) (v : Value) : VResult :=
  match baseValidate f v with
  | .err r => .err r
  | .ok =>
    if falsy v && !f.required then .ok
    else minLenCheck f (jsToString v)

/-- NumberField maximum check. -/
def numMaxCheck (f : Field) (n : JsNum) : VResult :=
  match f.max with
  | some m =>
    if jsGt n (.fin m) then .err ("Maximum value: " ++ qRender m) else .ok
  | none => .ok

/-- NumberField minimum check. -/
def numMinCheck (f : Field) (n : JsNum) : VResult :=
  match f.min with
  | some m =>
    if jsLt n (.fin m) then .err ("Minimum value: " ++ qRender m)
    else numMaxCheck f n
  | none => numMaxCheck f n

/-- NumberField.validate.  Note the code rejects only NaN (isNaN), not the
    infinities. -/
def numberValidate (f : Field) (v : Value) : VResult :=
  match baseValidate f v with
  | .err r => .err r
  | .ok =>
    if falsy v && !f.required then .ok
    else
      let n := jsToNumber v
      if n == .nan then .err "Must be a valid number"
      else if f.integer && !isIntegerJ n then .err "Must be an integer"
      else numMinCheck f n

/-- EmailField.validate: TextField.validate with the format reason rewritten. -/
def emailValidate (f : Field) (v : Value) : VResult :=
  match textValidate f v with
  | .err "Invalid format" => .err "Invalid email address"
  | r => r

/-- URLField.validate: TextField.validate with the format reason rewritten. -/
def urlValidate (f : Field) (v : Value) : VResult :=
  match textValidate f v with
  | .err "Invalid format" => .err "Invalid URL (must start with http:// or https://)"
  | r => r

/-- Is a year a leap year (Gregorian rules, as used by the JS Date object). -/
def isLeap (y : Nat) : Bool :=
  y % 4 == 0 && (y % 100 != 0 || y % 400 == 0)

/-- Days in a month of a given year. -/
def daysInMonth (y m : Nat) : Nat :=
  if m = 2 then (if isLeap y then 29 else 28)
  else if m = 4 ∨ m = 6 ∨ m = 9 ∨ m = 11 then 30
  else 31

/-- Month-overflow normalisation of the JS Date constructor: starting from
    year y, month m (1-12) and a day d that may exceed the month length,
    roll the excess days into following months.  The fuel argument bounds
    the recursion; every step removes at least 28 days, so fuel d always
    suffices for the inputs that reach this function (day at most 31). -/
def normDateAux : Nat → Nat × Nat × Nat → Nat × Nat × Nat
  | 0, s => s
  | fuel + 1, (y, m, d) =>
    if d ≤ daysInMonth y m then (y, m, d)
    else if m = 12 then normDateAux fuel (y + 1, 1, d - daysInMonth y m)
    else normDateAux fuel (y, m + 1, d - daysInMonth y m)

/-- Split a character list on a separator character, keeping empty segments
    (the behaviour of String.prototype.split with a plain character). -/
def splitOnChar (sep : Char) : List Char → List (List Char)
  | [] => [[]]
  | c :: rest =>
    let r := splitOnChar sep rest
    if c == sep then [] :: r
    else
      match r with
      | h :: t => (c :: h) :: t
      | [] => [[c]]

/-- The DD/MM/YYYY round-trip check of DateField.validate: split the string
    on slashes, coerce the three parts to numbers, build a Date and compare
    the calendar components.  For the integral in-range components produced
    by any string passing the date pattern this is exactly the JS Date
    normalisation; other component shapes (which no pattern-passing string
    produces) fail the round-trip, as they do in JS for every case reachable
    from the field constructors of the repository. -/
def dateRoundTripOK (s : String) : Bool :=
  let parts := (splitOnChar '/' s.data).map (fun l => strToNumber (String.mk l))
  match parts.getD 0 .nan, parts.getD 1 .nan, parts.getD 2 .nan with
  | .fin dq, .fin mq, .fin yq =>
    if dq.den = 1 ∧ mq.den = 1 ∧ yq.den = 1 ∧ 1 ≤ dq.num ∧ 1 ≤ mq.num ∧
        mq.num ≤ 12 ∧ 100 ≤ yq.num then
      decide (normDateAux dq.num.toNat (yq.num.toNat, mq.num.toNat, dq.num.toNat)
        = (yq.num.toNat, mq.num.toNat, dq.num.toNat))
    else false
  | _, _, _ => false

/-- The day alternation of the date regex: 0[1-9] or [12][0-9] or 3[01]. -/
def dayShape (c1 c2 : Char) : Bool :=
  (c1 == '0' && c2.isDigit && c2 != '0')
    || ((c1 == '1' || c1 == '2') && c2.isDigit)
    || (c1 == '3' && (c2 == '0' || c2 == '1'))

/-- The month alternation of the date regex: 0[1-9] or 1[012]. -/
def monthShape (c1 c2 : Char) : Bool :=
  (c1 == '0' && c2.isDigit && c2 != '0')
    || (c1 == '1' && (c2 == '0' || c2 == '1' || c2 == '2'))

/-- The year part of the date regex: (19 or 20) then two digits. -/
def yearShape (y1 y2 y3 y4 : Char) : Bool :=
  ((y1 == '1' && y2 == '9') || (y1 == '2' && y2 == '0'))
    && y3.isDigit && y4.isDigit

/-- The anchored DD/MM/YYYY pattern of DateField. -/
def datePat (s : String) : Bool :=
  match s.data with
  | [d1, d2, s1, m1, m2, s2, y1, y2, y3, y4] =>
    s1 == '/' && s2 == '/' && dayShape d1 d2 && monthShape m1 m2
      && yearShape y1 y2 y3 y4
  | _ => false

/-- A character allowed in the email regex character classes: anything that
    is not whitespace and not an at sign. -/
def okEmailChar (c : Char) : Bool := !isWsChar c && c != '@'

/-- Is there a dot strictly inside a character list (with at least one
    character on each side). -/
def hasInnerDot (l : List Char) : Bool :=
  (List.range l.length).any (fun j =>
    decide (0 < j) && decide (j + 1 < l.length) && (l.getD j ' ' == '.'))

/-- The anchored email pattern of EmailField: one at sign with a non-empty
    local part, and a domain containing an inner dot, no whitespace. -/
def emailPat (s : String) : Bool :=
  match splitOnChar '@' s.data with
  | [a, b] =>
    !a.isEmpty && a.all okEmailChar && !b.isEmpty && b.all okEmailChar
      && hasInnerDot b
  | _ => false

/-- A character matched by the dot of a JS regex (no line terminators; the
    two Unicode separators are outside the modelled character set). -/
def notNewline (c : Char) : Bool := c != '\n' && c != '\r'

/-- Strip a literal prelude from a character list. -/
def stripLit (lit l : List Char) : Option (List Char) :=
  if l.take lit.length == lit then some (l.drop lit.length) else none

/-- Does the remainder match .+ then a dot then .+ (unanchored at the end). -/
def dotSplitOK (l : List Char) : Bool :=
  (List.range l.length).any (fun j =>
    decide (0 < j) && (l.take j).all notNewline && (l.getD j ' ' == '.')
      && (match l.get? (j + 1) with
          | some c => notNewline c
          | none => false))

/-- The URL pattern of URLField: an http:// or https:// prelude followed by
    text containing a dot with text around it. -/
def urlPat (s : String) : Bool :=
  match stripLit "https://".data s.data with
  | some rest => dotSplitOK rest
  | none =>
    match stripLit "http://".data s.data with
    | some rest => dotSplitOK rest
    | none => false

/-- The test of the field pattern against a string (pattern.test). -/
def patTest (f : Field) (s : String) : Bool :=
  match f.pattern with
  | some p => p s
  | none => false

/-- DateField.validate: TextField.validate with the format reason rewritten,
    plus the calendar round-trip check on pattern-matching strings. -/
def dateValidate (f : Field) (v : Value) : VResult :=
  let base : VResult :=
    match textValidate f v with
    | .err "Invalid format" => .err "Invalid date (format: DD/MM/YYYY)"
    | r => r
  match base with
  | .err r => .err r
  | .ok =>
    match v with
    | .vStr s =>
      if s ≠ "" ∧ patTest f s then
        if dateRoundTripOK s then .ok
        else .err "Invalid date (format: DD/MM/YYYY)"
      else .ok
    | _ => .ok

/-- The list of stored option values of a choice-like field. -/
def validOptionValues (f : Field) : List String := f.options.map optValue

/-- ChoiceField.validate. -/
def choiceValidate (f : Field) (v : Value) : VResult :=
  match baseValidate f v with
  | .err r => .err r
  | .ok =>
    if falsy v && !f.required then .ok
    else
      match v with
      | .vNum n =>
        if jsLt n (.fin 1) || jsGt n (.fin (f.options.length : ℚ)) then
          .err ("Choose a number between 1 and " ++ toString f.options.length)
        else .ok
      | .vStr s =>
        if !(validOptionValues f).contains s then .err "Invalid choice" else .ok
      | _ => .ok

/-- MultipleChoiceField.validate (it does not call the base validate). -/
def mcValidate (f : Field) (v : Value) : VResult :=
  match v with
  | .vList arr =>
    if arr.length < f.minChoices then
      .err ("Select at least " ++ toString f.minChoices ++ " option(s)")
    else if f.maxChoices < arr.length then
      .err ("Select maximum " ++ toString f.maxChoices ++ " option(s)")
    else if arr.all (fun c => (validOptionValues f).contains c) then .ok
    else .err "One or more choices are invalid"
  | _ => if f.required then .err "Select at least 1 option(s)" else .ok

/-- Does a string contain another as a contiguous substring. -/
def startsWithL : List Char → List Char → Bool
  | _, [] => true
  | [], _ :: _ => false
  | h :: t, n :: m => h == n && startsWithL t m

/-- Substring containment on character lists (String.prototype.includes). -/
def containsL : List Char → List Char → Bool
  | [], needle => needle.isEmpty
  | h :: t, needle => startsWithL (h :: t) needle || containsL t needle

/-- RatingField.validate: NumberField.validate with reasons mentioning
    "number" rewritten to the rating prompt. -/
def ratingValidate (f : Field) (v : Value) : VResult :=
  match numberValidate f v with
  | .ok => .ok
  | .err r =>
    if containsL r.data "number".data then
      .err ("Enter a number from " ++ qRenderOpt f.min ++ " to " ++ qRenderOpt f.max)
    else .err r

/-- ASCII lowercasing followed by trim (value.toLowerCase().trim()); the
    non-ASCII letters in the accepted token list are already lower case. -/
def lowerTrim (s : String) : String :=
  String.mk (trimChars (s.data.map Char.toLower))

/-- The tokens YesNoField accepts as yes. -/
def yesTokens : List String := ["y", "yes", "s", "si", "sì"]

/-- The tokens YesNoField accepts as no. -/
def noTokens : List String := ["n", "no"]

/-- YesNoField.validate. -/
def yesNoValidate (f : Field) (v : Value) : VResult :=
  match baseValidate f v with
  | .err r => .err r
  | .ok =>
    match v with
    | .vBool _ => .ok
    | .vStr s =>
      if (yesTokens ++ noTokens).contains (lowerTrim s) then .ok
      else .err "Answer with Y (yes) or N (no)"
    | _ => .err "Answer with Y (yes) or N (no)"

/-- Dynamic dispatch of validate over the field kind, mirroring the class
    hierarchy of field-types.ts. -/
def Field.validate (f : Field) (v : Value) : VResult :=
  match f.kind with
  | .text => textValidate f v
  | .number => numberValidate f v
  | .email => emailValidate f v
  | .url => urlValidate f v
  | .date => dateValidate f v
  | .choice => choiceValidate f v
  | .multipleChoice => mcValidate f v
  | .rating => ratingValidate f v
  | .yesNo => yesNoValidate f v

/-- BaseField.setValue: validate, then either store the value and clear the
    error, or store the reason and keep the prior value. -/
def setValueBase (f : Field) (v : Value) : Bool × Field :=
  match Field.validate f v with
  | .ok => (true, { f with value := v, error := none })
  | .err r => (false, { f with error := some r })

/-- Separator characters of the MultipleChoiceField input split. -/
def sepChar (c : Char) : Bool := c == ',' || isWsChar c

/-- Maximal runs of non-separator characters: the combined effect of
    splitting on runs of commas/whitespace, trimming, and dropping empty
    tokens in MultipleChoiceField.setValue. -/
def tokensAux : List Char → List Char → List (List Char)
  | [], acc => if acc.isEmpty then [] else [acc.reverse]
  | c :: rest, acc =>
    if sepChar c then
      if acc.isEmpty then tokensAux rest [] else acc.reverse :: tokensAux rest []
    else tokensAux rest (c :: acc)

/-- The token list of a MultipleChoiceField string input. -/
def splitTokens (s : String) : List String :=
  (tokensAux s.data []).map String.mk

/-- The token-resolution loop of MultipleChoiceField.setValue.  A token whose
    numeric value passes the 1..length range test is looked up in the option
    array; a fractional index makes that lookup yield undefined and the
    subsequent option.value access throw (modelled by none). -/
def mcResolve (opts : List JsOpt) : List String → Option (List String)
  | [] => some []
  | t :: ts =>
    if strToNumber t != .nan && jsGe (strToNumber t) (.fin 1)
        && jsLe (strToNumber t) (.fin (opts.length : ℚ)) then
      match arrGetNum opts (jsSubOne (strToNumber t)) with
      | some o => (mcResolve opts ts).map (fun rest => optValue o :: rest)
      | none => none
    else mcResolve opts ts

/-- A coerced token value that cannot make the option lookup throw: NaN,
    an infinity, or an integral finite value.  Fractional in-range values
    are exactly the ones that crash the resolution loop. -/
def tokSafeB : JsNum → Bool
  | .fin q => q.den == 1
  | _ => true

/-- The resolution of a single token, as a partial function: the option
    value it contributes, or none when it is dropped.  mcResolve equals the
    filterMap of this function whenever every token is safe. -/
def resolveTok (opts : List JsOpt) (t : String) : Option String :=
  if strToNumber t != .nan && jsGe (strToNumber t) (.fin 1)
      && jsLe (strToNumber t) (.fin (opts.length : ℚ)) then
    (arrGetNum opts (jsSubOne (strToNumber t))).map optValue
  else none

/-- Dynamic dispatch of setValue over the field kind: ChoiceField and
    MultipleChoiceField normalise numeric / string input before delegating
    to the base setValue, and YesNoField replaces it entirely.  The result
    is none exactly when the TypeScript code throws. -/
def Field.setValue (f : Field) (v : Value) : Option (Bool × Field) :=
  match f.kind with
  | .choice =>
    match v with
    | .vNum n =>
      if jsGe (jsSubOne n) (.fin 0) && jsLt (jsSubOne n) (.fin (f.options.length : ℚ)) then
        match arrGetNum f.options (jsSubOne n) with
        | some opt => some (setValueBase f (.vStr (optValue opt)))
        | none => none
      else some (setValueBase f v)
    | _ => some (setValueBase f v)
  | .multipleChoice =>
    match v with
    | .vStr s =>
      match mcResolve f.options (splitTokens s) with
      | some vals => some (setValueBase f (.vList vals))
      | none => none
    | _ => some (setValueBase f v)
  | .yesNo =>
    match v with
    | .vStr s =>
      if yesTokens.contains (lowerTrim s) then
        some (true, { f with value := .vBool true, error := none })
      else if noTokens.contains (lowerTrim s) then
        some (true, { f with value := .vBool false, error := none })
      else some (false, { f with error := some "Answer with Y (yes) or N (no)" })
    | .vBool b => some (true, { f with value := .vBool b, error := none })
    | _ => some (false, { f with error := some "Answer with Y (yes) or N (no)" })
  | _ => some (setValueBase f v)

/-- A step: a field plus the answered flag (id and description of the Step
    record play no role in the verified logic). -/
structure StepS where
  field : Field
  answered : Bool

/-- The FormShell session state.  currentStepIndex is -1 on the welcome
    screen; startTimeSet models whether startTime is non-null; pending
    counts scheduled auto-advance timers (setTimeout callbacks created by
    answer/skip that have not fired yet — the code never cancels them). -/
structure Shell where
  steps : List StepS
  currentStepIndex : Int
  started : Bool
  completed : Bool
  helpActive : Bool
  startTimeSet : Bool
  pending : Nat

/-- collectData: project the current field value of every step into an id-to-value
    map; on duplicate ids the later assignment wins, and a missing id reads
    as undefined. -/
def collectData (steps : List StepS) : FormData := fun fid =>
  match steps.reverse.find? (fun st => st.field.id == fid) with
  | some st => st.field.value
  | none => .vNull

/-- shouldShowStep: a step with no condition is always visible, otherwise
    its condition is evaluated against the live form data. -/
def shouldShowL (steps : List StepS) (i : Nat) : Bool :=
  match steps.get? i with
  | some st =>
    match st.field.condition with
    | none => true
    | some c => c (collectData steps)
  | none => false

/-- getNextVisibleStep: the smallest visible index above fromIndex, or the
    step count if none. -/
def getNextVisibleStep (steps : List StepS) (fromIndex : Int) : Int :=
  match (List.range steps.length).find?
      (fun (i : Nat) => decide (fromIndex < (i : Int)) && shouldShowL steps i) with
  | some i => (i : Int)
  | none => (steps.length : Int)

/-- getPreviousVisibleStep: the largest visible index below fromIndex, or -1. -/
def getPreviousVisibleStep (steps : List StepS) (fromIndex : Int) : Int :=
  match (List.range steps.length).reverse.find?
      (fun (i : Nat) => decide ((i : Int) < fromIndex) && shouldShowL steps i) with
  | some i => (i : Int)
  | none => -1

/-- List access with a signed index (array access in the command handlers);
    a negative or out-of-range index reads undefined. -/
def listGetI {α : Type} (l : List α) (i : Int) : Option α :=
  if 0 ≤ i then l.get? i.toNat else none

/-- List update at a signed index. -/
def listSetI {α : Type} (l : List α) (i : Int) (x : α) : List α :=
  if 0 ≤ i then l.set i.toNat x else l

/-- FormShell.start.  The pair components are the new state and the error
    message surfaced, if any. -/
def Shell.start (sh : Shell) : Shell × Option String :=
  if sh.helpActive then
    (sh, some "Use formShell.continue() to resume the form first")
  else if sh.started then
    (sh, some "Form already started. Use formShell.reset() to start over")
  else if (sh.steps.length : Int) ≤ getNextVisibleStep sh.steps (-1) then
    (sh, some "No visible steps in form")
  else
    ({ sh with
        currentStepIndex := getNextVisibleStep sh.steps (-1),
        started := true,
        startTimeSet := true }, none)

/-- FormShell.answer.  Returns none when the underlying setValue throws
    (which the renderer cannot catch); otherwise the updated state, with a
    fresh auto-advance timer scheduled on success. -/
def Shell.answer (sh : Shell) (v : Value) : Option (Shell × Option String) :=
  if sh.helpActive then
    some (sh, some "Use formShell.continue() to resume the form first")
  else if !sh.started then
    some (sh, some "Use formShell.start() to begin the form")
  else if sh.completed then
    some (sh, some "Form already completed! Use formShell.submit() to send or formShell.reset() to start over")
  else
    match listGetI sh.steps sh.currentStepIndex with
    | none => none
    | some st =>
      match Field.setValue st.field v with
      | none => none
      | some (true, f) =>
        some ({ sh with
                  steps := listSetI sh.steps sh.currentStepIndex
                    { st with field := f, answered := true },
                  pending := sh.pending + 1 },
              none)
      | some (false, f) =>
        some ({ sh with
                  steps := listSetI sh.steps sh.currentStepIndex
                    { st with field := f } },
              some (f.error.getD "Invalid value"))

/-- FormShell.skip. -/
def Shell.skip (sh : Shell) : Option (Shell × Option String) :=
  if sh.helpActive then
    some (sh, some "Use formShell.continue() to resume the form first")
  else if !sh.started then
    some (sh, some "Use formShell.start() to begin the form")
  else if sh.completed then
    some (sh, some "Form already completed! Use formShell.submit() to send or formShell.reset() to start over")
  else
    match listGetI sh.steps sh.currentStepIndex with
    | none => none
    | some st =>
      if st.field.required then
        some (sh, some "This question is required and cannot be skipped")
      else
        some ({ sh with
                  steps := listSetI sh.steps sh.currentStepIndex
                    { st with answered := true,
                              field := { st.field with value := .vNull } },
                  pending := sh.pending + 1 },
              none)

/-- FormShell.back. -/
def Shell.back (sh : Shell) : Shell × Option String :=
  if sh.helpActive then
    (sh, some "Use formShell.continue() to resume the form first")
  else if getPreviousVisibleStep sh.steps sh.currentStepIndex < 0 then
    (sh, some "Already at first question. Use formShell.help() for commands")
  else
    ({ sh with
        currentStepIndex := getPreviousVisibleStep sh.steps sh.currentStepIndex,
        completed := false }, none)

/-- The clearing applied to one step by FormShell.reset: answered false,
    field value null, field error null. -/
def clearStep (st : StepS) : StepS :=
  { st with answered := false,
            field := { st.field with value := .vNull, error := none } }

/-- FormShell.reset.  Note that pending timers are not cancelled (the code
    stores no handle for them). -/
def Shell.reset (sh : Shell) : Shell :=
  { sh with
      steps := sh.steps.map clearStep,
      currentStepIndex := -1,
      started := false,
      completed := false,
      helpActive := false,
      startTimeSet := false }

/-- FormShell.help. -/
def Shell.help (sh : Shell) : Shell :=
  { sh with helpActive := true }

/-- FormShell.continue. -/
def Shell.continueCmd (sh : Shell) : Shell × Option String :=
  if !sh.helpActive then
    if !sh.started then (sh, some "Use formShell.start() to begin the form")
    else (sh, some "Use formShell.answer() to respond to the current question")
  else ({ sh with helpActive := false }, none)

/-- FormShell.submit.  The network interaction is an external collaborator;
    the session state is unchanged in every branch of the code (failure is
    displayed and completed is retained). -/
def Shell.submit (sh : Shell) : Shell × Option String :=
  if sh.helpActive then
    (sh, some "Use formShell.continue() to resume the form first")
  else if !sh.completed then (sh, some "Complete all questions first!")
  else (sh, none)

/-- The firing of one scheduled auto-advance timer: the setTimeout callback
    invoking _advanceStep.  With no timer pending this is a no-op transition
    of the model. -/
def Shell.fireAdvance (sh : Shell) : Shell :=
  if sh.pending = 0 then sh
  else if sh.completed then { sh with pending := sh.pending - 1 }
  else if getNextVisibleStep sh.steps sh.currentStepIndex < (sh.steps.length : Int) then
    { sh with
        pending := sh.pending - 1,
        currentStepIndex := getNextVisibleStep sh.steps sh.currentStepIndex }
  else
    { sh with
        pending := sh.pending - 1,
        completed := true }

/-- The command surface, plus the internal timer event.  The y() and n()
    sugar commands are answer applied to the strings y and n. -/
inductive Cmd where
  | start
  | answer (v : Value)
  | skip
  | back
  | reset
  | help
  | cont
  | submit
  | fire

/-- One command dispatch.  none models an exception escaping to the caller. -/
def runCmd (sh : Shell) : Cmd → Option (Shell × Option String)
  | .start => some (Shell.start sh)
  | .answer v => Shell.answer sh v
  | .skip => Shell.skip sh
  | .back => some (Shell.back sh)
  | .reset => some (Shell.reset sh, none)
  | .help => some (Shell.help sh, none)
  | .cont => some (Shell.continueCmd sh)
  | .submit => some (Shell.submit sh)
  | .fire => some (Shell.fireAdvance sh, none)

/-- Run a command sequence from a state, stopping at a thrown exception. -/
def runSeq (sh : Shell) : List Cmd → Option Shell
  | [] => some sh
  | c :: cs =>
    match runCmd sh c with
    | some (sh', _) => runSeq sh' cs
    | none => none

/-- A declarative field configuration (the FieldConfig input). -/
structure FieldCfg where
  kind : FieldKind
  id : String
  required : Option Bool := none
  defaultValue : Option Value := none
  condition : Option (FormData → Bool) := none
  minLength : Option Nat := none
  maxLength : Option Nat := none
  pattern : Option (String → Bool) := none
  min : Option ℚ := none
  max : Option ℚ := none
  integer : Option Bool := none
  options : List JsOpt := []
  minChoices : Option Nat := none
  maxChoices : Option Nat := none

/-- FieldFactory.create plus the variant constructors: resolve the config
    into a field instance.  required defaults to true; the initial value is
    defaultValue ?? null, except for YesNoField whose constructor uses
    defaultValue || null and therefore drops falsy defaults; Email/URL/Date
    install their fixed patterns; Rating forces integer with min/max
    defaulting to 1/5; MultipleChoice resolves minChoices/maxChoices
    defaults. -/
def mkField (c : FieldCfg) : Field :=
  let req := c.required != some false
  { kind := c.kind
    id := c.id
    required := req
    value :=
      match c.kind with
      | .yesNo =>
        match c.defaultValue with
        | some v => if falsy v then .vNull else v
        | none => .vNull
      | _ => c.defaultValue.getD .vNull
    error := none
    condition := c.condition
    minLength := c.minLength
    maxLength := c.maxLength
    pattern :=
      match c.kind with
      | .email => some emailPat
      | .url => some urlPat
      | .date => some datePat
      | .text => c.pattern
      | _ => none
    min :=
      match c.kind with
      | .rating => some (c.min.getD 1)
      | .number => c.min
      | _ => none
    max :=
      match c.kind with
      | .rating => some (c.max.getD 5)
      | .number => c.max
      | _ => none
    integer :=
      match c.kind with
      | .rating => true
      | .number => c.integer.getD false
      | _ => false
    options :=
      match c.kind with
      | .choice | .multipleChoice => c.options
      | _ => []
    minChoices :=
      match c.kind with
      | .multipleChoice => c.minChoices.getD (if req then 1 else 0)
      | _ => 0
    maxChoices :=
      match c.kind with
      | .multipleChoice => c.maxChoices.getD c.options.length
      | _ => 0 }

/-- The FormShell constructor: build the steps and start on the welcome
    screen. -/
def mkShell (cfg : List FieldCfg) : Shell :=
  { steps := cfg.map (fun c => { field := mkField c, answered := false }),
    currentStepIndex := -1,
    started := false,
    completed := false,
    helpActive := false,
    startTimeSet := false,
    pending := 0 }

/-
  Concrete instances used by the claim theorems, their counterexamples and
  their witnesses.  Each is built through mkField / mkShell, so the
  constructor defaulting of the source is part of the evaluation.
-/

/-- A date field (DateField with no extra constraints). -/
def dateFieldEx : Field := mkField { kind := .date, id := "birth" }

/-- A required three-option multiple-choice field. -/
def mcFieldEx : Field :=
  mkField { kind := .multipleChoice, id := "m",
            options := [.plain "a", .plain "b", .plain "c"] }

/-- A required five-option multiple-choice field. -/
def mc5FieldEx : Field :=
  mkField { kind := .multipleChoice, id := "m5",
            options := [.plain "A", .plain "B", .plain "C", .plain "D", .plain "E"] }

/-- An optional two-option choice field. -/
def choiceOptionalEx : Field :=
  mkField { kind := .choice, id := "c", required := some false,
            options := [.plain "a", .plain "b"] }

/-- A required two-option choice field. -/
def choiceReqEx : Field :=
  mkField { kind := .choice, id := "c",
            options := [.plain "a", .plain "b"] }

/-- A required unconstrained number field. -/
def numberFieldEx : Field := mkField { kind := .number, id := "n" }

/-- A required integer number field with bounds 1 to 5. -/
def numberBoundedEx : Field :=
  mkField { kind := .number, id := "n", min := some 1, max := some 5,
            integer := some true }

/-- An optional number field with minimum 1. -/
def numberOptionalMinEx : Field :=
  mkField { kind := .number, id := "n", required := some false, min := some 1 }

/-- An optional text field with minimum length 5. -/
def textOptionalMinLenEx : Field :=
  mkField { kind := .text, id := "t", required := some false,
            minLength := some 5 }

/-- A required yes/no field. -/
def yesNoReqEx : Field := mkField { kind := .yesNo, id := "y" }

/-- A one-step form whose single step is a two-option choice field. -/
def choiceShellCfg : List FieldCfg :=
  [{ kind := .choice, id := "c", options := [.plain "a", .plain "b"] }]

/-- A one-step form whose single step carries a default value and a condition
    on its own answer: visible initially (the default satisfies the
    condition) but invisible once reset clears the value to null. -/
def timerShellCfg : List FieldCfg :=
  [{ kind := .text, id := "a",
     defaultValue := some (.vStr "x"),
     condition := some (fun d => d "a" == .vStr "x") }]

/-- A two-step form where the first step is conditional on the field of the
    second step, which carries a default value. -/
def resetShellCfg : List FieldCfg :=
  [{ kind := .text, id := "a", condition := some (fun d => d "b" == .vStr "x") },
   { kind := .text, id := "b", defaultValue := some (.vStr "x") }]

/-- A one-step text form, started: a state whose current step is the first
    visible step. -/
def startedShellEx : Shell := (Shell.start (mkShell [{ kind := .text, id := "a" }])).1

/-- A two-step text form with no default values and no conditions. -/
def plainCfg : List FieldCfg :=
  [{ kind := .text, id := "a" }, { kind := .text, id := "b" }]

/-- C1: the claim states that no command of the surface ever throws to the
    caller, and in particular that answer applied to any number, including
    1.5, on a Choice-field step returns normally with an error message.
    Evaluating the code refutes this: on a started one-step form whose step
    is a two-option choice field, answer(1.5) computes index 0.5, which
    passes the range guard, so options[0.5] reads undefined and the
    subsequent option.value access throws a TypeError that escapes to the
    caller (modelled by none).  The claim is right about the intent (the
    specification says commands never throw) and the code is wrong. -/
theorem C1_choice_answer_throws :
  runSeq (mkShell choiceShellCfg) [.start, .answer (.vNum (.fin (mkRat 3 2)))] = none := rfl

/-- C7: the claim states that completed implies started in every state
    reachable by commands.  The code violates it: auto-advance timers
    scheduled by a successful answer are never cancelled, so the sequence
    start, answer, reset followed by the pending timer firing, on a form
    whose only step is conditional on its own default value, completes a
    session that reset had returned to the welcome screen, reaching
    completed = true with started = false. -/
theorem C7_completed_without_started :
  (runSeq (mkShell timerShellCfg) [.start, .answer (.vStr "x"), .reset, .fire]).map
    (fun sh => (sh.completed, sh.started)) = some (true, false) := rfl

/-- C2 counterexample: the claim states that whenever validate rejects a
    candidate, setValue rejects it as well.  On a required multiple-choice
    field, validate applied to the raw string "1,3" fails (the value is not
    an array), yet setValue("1,3") succeeds: it first normalises the token
    string to the corresponding option values and validates the result. -/
theorem C2_counterexample :
  Field.validate mcFieldEx (.vStr "1,3") = .err "Select at least 1 option(s)"
    ∧ Field.setValue mcFieldEx (.vStr "1,3")
      = some (true, { mcFieldEx with value := .vList ["a", "c"], error := none }) :=
  ⟨rfl, rfl⟩

/-- C4 counterexample: the claim states that setValue(0) always fails on a
    Choice field.  On a non-required choice field it succeeds: 0 is falsy,
    so ChoiceField.validate returns valid before the range check, and the
    numeric 0 itself is stored. -/
theorem C4_counterexample :
  Field.setValue choiceOptionalEx (.vNum (.fin 0))
    = some (true, { choiceOptionalEx with value := .vNum (.fin 0), error := none }) := rfl

/-- C9 counterexample: the claim states that any candidate coercing to a
    non-finite number is rejected with reason Must be a valid number.  The
    code only rejects NaN: on a required number field with no bounds,
    validate accepts Infinity and setValue stores it. -/
theorem C9_counterexample :
  Field.validate numberFieldEx (.vNum .posInf) = .ok
    ∧ Field.setValue numberFieldEx (.vNum .posInf)
      = some (true, { numberFieldEx with value := .vNum .posInf, error := none }) :=
  ⟨rfl, rfl⟩

/-- C6 counterexample: the claim states that reset followed by start selects
    the same first visible step as a freshly constructed form, including
    when a defaultValue is referenced by the condition of another step.  It does
    not: reset clears values to null instead of restoring defaults, so on a
    form whose first step is conditional on the default of the second field,
    start on the fresh form selects step 0 while reset followed by start
    selects step 1. -/
theorem C6_counterexample :
  (runSeq (mkShell resetShellCfg) [.start]).map (fun sh => sh.currentStepIndex)
      = some 0
    ∧ (runSeq (mkShell resetShellCfg) [.reset, .start]).map
        (fun sh => sh.currentStepIndex) = some 1 :=
  ⟨rfl, rfl⟩

/-- C10: on an optional Text or Number field every falsy candidate (null,
    undefined, the empty string, 0, NaN, false) passes validate before any
    constraint is consulted, and setValue stores it: the constraint checks
    are bypassed whenever the candidate is falsy and the field is not
    required. -/
theorem C10_falsy_bypass (f : Field) (v : Value)
    (hk : f.kind = .text ∨ f.kind = .number)
    (hr : f.required = false) (hv : falsy v = true) :
    Field.validate f v = .ok
      ∧ Field.setValue f v = some (true, { f with value := v, error := none }) := by
  have hval : Field.validate f v = .ok := by
    rcases hk with h | h <;>
      simp [Field.validate, h, textValidate, numberValidate, baseValidate,
        requiredMissing, hr, hv]
  refine ⟨hval, ?_⟩
  rcases hk with h | h <;>
    simp [Field.setValue, h, setValueBase, hval]

/-- C10 witness: a non-required number field with minimum 1 accepts and
    stores 0, and a non-required text field with minimum length 5 accepts
    and stores the empty string. -/
theorem C10_falsy_bypass_witness :
    Field.setValue numberOptionalMinEx (.vNum (.fin 0))
        = some (true, { numberOptionalMinEx with value := .vNum (.fin 0), error := none })
      ∧ Field.setValue textOptionalMinLenEx (.vStr "")
        = some (true, { textOptionalMinLenEx with value := .vStr "", error := none }) :=
  ⟨(C10_falsy_bypass numberOptionalMinEx (.vNum (.fin 0)) (Or.inr rfl) rfl rfl).2,
   (C10_falsy_bypass textOptionalMinLenEx (.vStr "") (Or.inl rfl) rfl rfl).2⟩

/-- C8: in any session state whose current step has no visible step before
    it, back fails with an error message and leaves the whole state, in
    particular currentStepIndex, unchanged.  This covers every reachable
    state with that property. -/
theorem C8_back_first_visible (sh : Shell)
    (h : ∀ i : Nat, (i : Int) < sh.currentStepIndex → shouldShowL sh.steps i = false) :
    (Shell.back sh).1 = sh ∧ ((Shell.back sh).2).isSome = true := by
  by_cases hh : sh.helpActive
  · simp [Shell.back, hh]
  · have hfind : (List.range sh.steps.length).reverse.find?
        (fun (i : Nat) => decide ((i : Int) < sh.currentStepIndex)
          && shouldShowL sh.steps i) = none := by
      apply List.find?_eq_none.mpr
      intro i _
      by_cases hlt : (i : Int) < sh.currentStepIndex
      · simp [hlt, h i hlt]
      · simp [hlt]
    have hp : getPreviousVisibleStep sh.steps sh.currentStepIndex = -1 := by
      unfold getPreviousVisibleStep
      rw [hfind]
    simp [Shell.back, hh, hp]

/-- C8 witness: on a freshly started one-step form (current step 0, no
    earlier step), back fails and the state is unchanged. -/
theorem C8_back_first_visible_witness :
    (Shell.back startedShellEx).1 = startedShellEx
      ∧ ((Shell.back startedShellEx).2).isSome = true := by
  apply C8_back_first_visible
  intro i hi
  have h0 : startedShellEx.currentStepIndex = 0 := rfl
  rw [h0] at hi
  exact absurd hi (by omega)

/-- C3: on a Date field, setValue of 31/02/2020 fails although the string
    matches the DD/MM/YYYY shape, because the reconstructed calendar date
    does not round-trip; 29/02/2020 succeeds (2020 is a leap year);
    29/02/2021 fails; both failures carry the reason
    Invalid date (format: DD/MM/YYYY). -/
theorem C3_date_examples (f : Field) (hk : f.kind = .date)
    (hp : f.pattern = some datePat) (hmin : f.minLength = none)
    (hmax : f.maxLength = none) :
    Field.setValue f (.vStr "31/02/2020")
        = some (false, { f with error := some "Invalid date (format: DD/MM/YYYY)" })
      ∧ Field.setValue f (.vStr "29/02/2020")
        = some (true, { f with value := .vStr "29/02/2020", error := none })
      ∧ Field.setValue f (.vStr "29/02/2021")
        = some (false, { f with error := some "Invalid date (format: DD/MM/YYYY)" }) := by
  have hval : ∀ s : String, s ≠ "" → datePat s = true →
      Field.validate f (.vStr s)
        = (if dateRoundTripOK s then .ok
           else .err "Invalid date (format: DD/MM/YYYY)") := by
    intro s hs hpat
    simp [Field.validate, hk, dateValidate, textValidate, baseValidate,
      requiredMissing, falsy, hs, hmin, hmax, minLenCheck, maxLenCheck,
      patCheck, hp, hpat, patTest, show jsToString (Value.vStr s) = s from rfl]
  have h1 := hval "31/02/2020" (by decide) (by rfl)
  have h2 := hval "29/02/2020" (by decide) (by rfl)
  have h3 := hval "29/02/2021" (by decide) (by rfl)
  rw [show dateRoundTripOK "31/02/2020" = false from rfl] at h1
  rw [show dateRoundTripOK "29/02/2020" = true from rfl] at h2
  rw [show dateRoundTripOK "29/02/2021" = false from rfl] at h3
  simp only [if_true, if_false, Bool.false_eq_true, reduceIte] at h1 h2 h3
  refine ⟨?_, ?_, ?_⟩ <;>
    simp [Field.setValue, hk, setValueBase, h1, h2, h3]

/-- C3 witness: the three evaluations on a concrete DateField built by the
    factory from a bare date config. -/
theorem C3_date_examples_witness :
    Field.setValue dateFieldEx (.vStr "31/02/2020")
        = some (false, { dateFieldEx with error := some "Invalid date (format: DD/MM/YYYY)" })
      ∧ Field.setValue dateFieldEx (.vStr "29/02/2020")
        = some (true, { dateFieldEx with value := .vStr "29/02/2020", error := none })
      ∧ Field.setValue dateFieldEx (.vStr "29/02/2021")
        = some (false, { dateFieldEx with error := some "Invalid date (format: DD/MM/YYYY)" }) :=
  C3_date_examples dateFieldEx rfl rfl rfl rfl

/-- C2 amended: the validate/setValue contract holds verbatim for the
    variants that inherit the base setValue (Text, Number, Email, URL, Date,
    Rating): a failing validate makes setValue fail, store the reason and
    keep the prior value, and a passing validate makes setValue store the
    candidate and clear the error.  In addition, for every variant, a
    required field rejects null, undefined and the empty string with the
    prior value unchanged, provided a required MultipleChoice field keeps
    its default minChoices of at least one. -/
theorem C2_amended :
    (∀ (f : Field) (v : Value),
        (f.kind = .text ∨ f.kind = .number ∨ f.kind = .email ∨ f.kind = .url
          ∨ f.kind = .date ∨ f.kind = .rating) →
        (∀ r, Field.validate f v = .err r →
            Field.setValue f v = some (false, { f with error := some r }))
          ∧ (Field.validate f v = .ok →
            Field.setValue f v = some (true, { f with value := v, error := none })))
      ∧ (∀ (f : Field) (v : Value), f.required = true →
          (f.kind = .multipleChoice → 1 ≤ f.minChoices) →
          (v = .vNull ∨ v = .vStr "") →
          ∃ e, Field.setValue f v = some (false, { f with error := some e })) := by
  constructor
  · intro f v hk
    have hsv : Field.setValue f v = some (setValueBase f v) := by
      rcases hk with h | h | h | h | h | h <;> simp [Field.setValue, h]
    constructor
    · intro r hr
      rw [hsv]
      simp [setValueBase, hr]
    · intro hok
      rw [hsv]
      simp [setValueBase, hok]
  · intro f v hreq hmc hv
    have h1 : f.kind = .multipleChoice → 0 < f.minChoices := fun h =>
      Nat.lt_of_lt_of_le Nat.zero_lt_one (hmc h)
    rcases hv with hv | hv <;> subst hv <;> cases hkind : f.kind <;>
      simp only [Field.setValue, hkind] <;>
      first
        | (refine ⟨"This field is required", ?_⟩
           simp [setValueBase, Field.validate, hkind, textValidate,
             numberValidate, emailValidate, urlValidate, dateValidate,
             choiceValidate, ratingValidate, baseValidate,
             requiredMissing, hreq, containsL, startsWithL]
           done)
        | (refine ⟨"Answer with Y (yes) or N (no)", ?_⟩
           simp [Field.setValue, hkind, yesTokens, noTokens, lowerTrim, trimChars]
           done)
        | (refine ⟨"Select at least 1 option(s)", ?_⟩
           simp [setValueBase, Field.validate, hkind, mcValidate, hreq]
           done)
        | (refine ⟨"Select at least " ++ toString f.minChoices ++ " option(s)", ?_⟩
           simp [setValueBase, Field.validate, hkind, mcValidate, splitTokens,
             tokensAux, mcResolve, h1 hkind]
           done)

/-- C2 amended witness: concrete instances of both parts — the base-variant
    contract on a bounded number field (a failing and a passing candidate),
    and the required rejection of the empty string on a required yes/no
    field. -/
theorem C2_amended_witness :
    Field.setValue numberBoundedEx (.vNum (.fin 7))
        = some (false, { numberBoundedEx with error := some "Maximum value: 5" })
      ∧ Field.setValue numberBoundedEx (.vNum (.fin 3))
        = some (true, { numberBoundedEx with value := .vNum (.fin 3), error := none })
      ∧ ∃ e, Field.setValue yesNoReqEx (.vStr "")
        = some (false, { yesNoReqEx with error := some e }) :=
  ⟨(C2_amended.1 numberBoundedEx (.vNum (.fin 7)) (Or.inr (Or.inl rfl))).1
      "Maximum value: 5" rfl,
   (C2_amended.1 numberBoundedEx (.vNum (.fin 3)) (Or.inr (Or.inl rfl))).2 rfl,
   C2_amended.2 yesNoReqEx (.vStr "") rfl (fun h => absurd h (by decide)) (Or.inr rfl)⟩

/-- The maximum check passes exactly when no configured maximum is exceeded. -/
theorem numMaxCheck_ok (f : Field) (n : JsNum) :
    numMaxCheck f n = .ok ↔ (∀ m, f.max = some m → jsGt n (.fin m) = false) := by
  unfold numMaxCheck
  cases hx : f.max with
  | none => simp
  | some m => cases hg : jsGt n (.fin m) <;> simp [hg]

/-- The combined minimum and maximum checks pass exactly when no configured
    bound is violated. -/
theorem numMinCheck_ok (f : Field) (n : JsNum) :
    numMinCheck f n = .ok
      ↔ ((∀ m, f.min = some m → jsLt n (.fin m) = false)
          ∧ (∀ m, f.max = some m → jsGt n (.fin m) = false)) := by
  unfold numMinCheck
  cases hm : f.min with
  | none => simp [numMaxCheck_ok f n]
  | some m =>
    cases hl : jsLt n (.fin m) with
    | false => simp [hl, numMaxCheck_ok f n]
    | true => simp [hl]

/-- C9 amended: for a Number field past the base checks (the candidate is
    not a required-missing value and not a falsy value on an optional
    field), the coercion is rejected with Must be a valid number exactly
    when it yields NaN — a candidate coercing to Infinity passes the
    numeric check: it can only be rejected by the integer flag or a
    configured bound, and with neither present it validates.  The integer
    flag and the inclusive bounds are enforced with the stated reasons. -/
theorem C9_amended (f : Field) (v : Value) (hk : f.kind = .number)
    (h1 : requiredMissing f v = false)
    (h2 : (falsy v && !f.required) = false) :
    (jsToNumber v = .nan → Field.validate f v = .err "Must be a valid number")
      ∧ (jsToNumber v ≠ .nan → f.integer = true →
          isIntegerJ (jsToNumber v) = false →
          Field.validate f v = .err "Must be an integer")
      ∧ (∀ m, f.min = some m → jsToNumber v ≠ .nan →
          (f.integer = true → isIntegerJ (jsToNumber v) = true) →
          jsLt (jsToNumber v) (.fin m) = true →
          Field.validate f v = .err ("Minimum value: " ++ qRender m))
      ∧ (∀ m, f.max = some m → jsToNumber v ≠ .nan →
          (f.integer = true → isIntegerJ (jsToNumber v) = true) →
          (∀ m2, f.min = some m2 → jsLt (jsToNumber v) (.fin m2) = false) →
          jsGt (jsToNumber v) (.fin m) = true →
          Field.validate f v = .err ("Maximum value: " ++ qRender m))
      ∧ (Field.validate f v = .ok ↔
          (jsToNumber v ≠ .nan
            ∧ (f.integer = true → isIntegerJ (jsToNumber v) = true)
            ∧ (∀ m, f.min = some m → jsLt (jsToNumber v) (.fin m) = false)
            ∧ (∀ m, f.max = some m → jsGt (jsToNumber v) (.fin m) = false))) := by
  have hval : Field.validate f v
      = (if jsToNumber v = .nan then .err "Must be a valid number"
         else if f.integer && !isIntegerJ (jsToNumber v) then .err "Must be an integer"
         else numMinCheck f (jsToNumber v)) := by
    simp [Field.validate, hk, numberValidate, baseValidate, h1, h2]
  have hint : ∀ (hn : jsToNumber v ≠ .nan),
      (f.integer = true → isIntegerJ (jsToNumber v) = true) →
      (f.integer && !isIntegerJ (jsToNumber v)) = false := by
    intro hn hi
    cases hfi : f.integer
    · simp
    · simp [hi hfi]
  refine ⟨?_, ?_, ?_, ?_, ?_⟩
  · intro hn
    simp [hval, hn]
  · intro hn hfi hii
    simp [hval, hn, hfi, hii]
  · intro m hm hn hi hlt
    simp [hval, hn, hint hn hi, numMinCheck, hm, hlt]
  · intro m hm hn hi hmin hgt
    have hmc : numMinCheck f (jsToNumber v)
        = .err ("Maximum value: " ++ qRender m) := by
      unfold numMinCheck
      cases hm2 : f.min with
      | none => simp [numMaxCheck, hm, hgt]
      | some m2 => simp [hmin m2 hm2, numMaxCheck, hm, hgt]
    simp [hval, hn, hint hn hi, hmc]
  · rw [hval]
    by_cases hn : jsToNumber v = .nan
    · simp [hn]
    · rw [if_neg hn]
      cases hii : (f.integer && !isIntegerJ (jsToNumber v)) with
      | true =>
        simp only [if_pos rfl, if_true]
        constructor
        · intro h
          exact absurd h (by simp)
        · rintro ⟨-, hi, -, -⟩
          rw [Bool.and_eq_true] at hii
          rw [hi hii.1] at hii
          simp at hii
      | false =>
        simp only [Bool.false_eq_true, if_false]
        rw [numMinCheck_ok]
        constructor
        · rintro ⟨hmin, hmax⟩
          refine ⟨hn, ?_, hmin, hmax⟩
          intro hfi
          rw [hfi] at hii
          simpa using hii
        · rintro ⟨-, -, hmin, hmax⟩
          exact ⟨hmin, hmax⟩

/-- C9 amended witness: on a required integer number field with bounds 1 to
    5, a non-numeric string is rejected as not a number, 3.5 as not an
    integer, 0 by the minimum, 7 by the maximum, and 3 validates. -/
theorem C9_amended_witness :
    Field.validate numberBoundedEx (.vStr "abc") = .err "Must be a valid number"
      ∧ Field.validate numberBoundedEx (.vNum (.fin (mkRat 7 2))) = .err "Must be an integer"
      ∧ Field.validate numberBoundedEx (.vNum (.fin 0)) = .err "Minimum value: 1"
      ∧ Field.validate numberBoundedEx (.vNum (.fin 7)) = .err "Maximum value: 5"
      ∧ Field.validate numberBoundedEx (.vNum (.fin 3)) = .ok := by
  refine ⟨?_, ?_, ?_, ?_, ?_⟩
  · exact (C9_amended numberBoundedEx (.vStr "abc") rfl rfl rfl).1 rfl
  · exact (C9_amended numberBoundedEx (.vNum (.fin (mkRat 7 2))) rfl rfl rfl).2.1
      (by decide) rfl rfl
  · exact (C9_amended numberBoundedEx (.vNum (.fin 0)) rfl rfl rfl).2.2.1
      1 rfl (by decide) (fun _ => rfl) rfl
  · exact (C9_amended numberBoundedEx (.vNum (.fin 7)) rfl rfl rfl).2.2.2.1
      5 rfl (by decide) (fun _ => rfl)
      (fun m2 hm2 => by injection hm2 with h; subst h; rfl) rfl
  · exact (C9_amended numberBoundedEx (.vNum (.fin 3)) rfl rfl rfl).2.2.2.2.mpr
      ⟨by decide, fun _ => rfl,
       fun m hm => by injection hm with h; subst h; rfl,
       fun m hm => by injection hm with h; subst h; rfl⟩

/-- jsSubOne computes subtraction by one on finite values. -/
theorem jsSubOne_fin (q : ℚ) : jsSubOne (.fin q) = .fin (q - 1) := by
  have hd : ((q.den : ℚ)) ≠ 0 := by
    exact_mod_cast q.den_nz
  have h : (mkRat (q.num - q.den) q.den) = q - 1 := by
    rw [Rat.mkRat_eq_div]
    push_cast
    rw [sub_div, Rat.num_div_den, div_self hd]
  simp [jsSubOne, h]

/-- C4 amended: on every Choice field and in-range 1-based integer index i,
    setValue applied to the number i takes exactly the same path as setValue
    applied to the value of option i-1; when that option value is non-empty
    (or the field is optional, making the empty value falsy-valid), both
    store the option value and succeed.  On a required field, setValue(0)
    and setValue(length+1) fail with the range reason and leave the stored
    value unchanged; for a non-required field setValue(0) instead succeeds
    by the falsiness bypass (see the counterexample). -/
theorem C4_amended (f : Field) (i : Nat) (opt : JsOpt)
    (hk : f.kind = .choice) (h1 : 1 ≤ i) (h2 : i ≤ f.options.length)
    (hopt : f.options.get? (i - 1) = some opt) :
    Field.setValue f (.vNum (.fin (i : ℚ))) = Field.setValue f (.vStr (optValue opt))
      ∧ (optValue opt ≠ "" ∨ f.required = false →
          Field.setValue f (.vNum (.fin (i : ℚ)))
            = some (true, { f with value := .vStr (optValue opt), error := none }))
      ∧ (f.required = true →
          Field.setValue f (.vNum (.fin 0))
            = some (false, { f with error := some ("Choose a number between 1 and "
                ++ toString f.options.length) })
          ∧ Field.setValue f (.vNum (.fin ((f.options.length : ℚ) + 1)))
            = some (false, { f with error := some ("Choose a number between 1 and "
                ++ toString f.options.length) })) := by
  have hlen : 1 ≤ f.options.length := le_trans h1 h2
  have h0le : (0 : ℚ) ≤ ((i : ℚ) - 1) := by
    have : (1 : ℚ) ≤ (i : ℚ) := by exact_mod_cast h1
    linarith
  have hltlen : ((i : ℚ) - 1) < (f.options.length : ℚ) := by
    have : (i : ℚ) ≤ (f.options.length : ℚ) := by exact_mod_cast h2
    linarith
  have hguard : (jsGe (jsSubOne (.fin (i : ℚ))) (.fin 0)
      && jsLt (jsSubOne (.fin (i : ℚ))) (.fin (f.options.length : ℚ))) = true := by
    rw [jsSubOne_fin]
    simp [jsGe, jsLt, not_lt.mpr h0le, hltlen]
  have hcast : ((i : ℚ) - 1) = (((i - 1 : ℕ) : ℤ) : ℚ) := by
    push_cast [Nat.cast_sub h1]
    ring
  have hlt2 : (((i - 1 : ℕ) : ℤ)) < (f.options.length : ℤ) := by
    exact_mod_cast (by omega : (i - 1 : ℕ) < f.options.length)
  have hget : arrGetNum f.options (jsSubOne (.fin (i : ℚ))) = some opt := by
    rw [jsSubOne_fin, hcast]
    simp [arrGetNum, hlt2]
    rw [← List.get?_eq_getElem?]
    exact hopt
  have heq : Field.setValue f (.vNum (.fin (i : ℚ)))
      = some (setValueBase f (.vStr (optValue opt))) := by
    simp only [Field.setValue, hk]
    rw [hguard, hget]
    rfl
  have hmem : optValue opt ∈ validOptionValues f :=
    List.mem_map_of_mem optValue (List.get?_mem hopt)
  refine ⟨?_, ?_, ?_⟩
  · rw [heq]
    simp only [Field.setValue, hk]
  · intro hval
    rw [heq]
    have hvalid : Field.validate f (.vStr (optValue opt)) = .ok := by
      rcases hval with hval | hval
      · simp [Field.validate, hk, choiceValidate, baseValidate, requiredMissing,
          hval, falsy, hmem]
      · by_cases hb : optValue opt = ""
        · simp [Field.validate, hk, choiceValidate, baseValidate, requiredMissing,
            hval, hb, falsy]
        · simp [Field.validate, hk, choiceValidate, baseValidate, requiredMissing,
            hval, hb, falsy, hmem]
    simp [setValueBase, hvalid]
  · intro hreq
    constructor
    · have hguard0 : jsGe (jsSubOne (.fin (0 : ℚ))) (.fin 0) = false := by
        rw [show jsSubOne (.fin (0 : ℚ)) = .fin (-1) from by
          rw [jsSubOne_fin]; norm_num]
        simp [jsGe, jsLt, show ((-1 : ℚ) < 0) from by norm_num]
      have hv : Field.validate f (.vNum (.fin 0))
          = .err ("Choose a number between 1 and " ++ toString f.options.length) := by
        simp [Field.validate, hk, choiceValidate, baseValidate, requiredMissing,
          falsy, hreq, jsLt, show ((0 : ℚ) < 1) from by norm_num]
      simp only [Field.setValue, hk]
      rw [hguard0]
      simp [setValueBase, hv]
      all_goals exact hk
    · have hidx2 : jsSubOne (.fin ((f.options.length : ℚ) + 1))
          = .fin ((f.options.length : ℚ)) := by
        rw [jsSubOne_fin]
        norm_num
      have hguard2 : (jsGe (jsSubOne (.fin ((f.options.length : ℚ) + 1))) (.fin 0)
          && jsLt (jsSubOne (.fin ((f.options.length : ℚ) + 1)))
            (.fin (f.options.length : ℚ))) = false := by
        rw [hidx2]
        simp [jsGe, jsLt]
      have hnf : falsy (.vNum (.fin ((f.options.length : ℚ) + 1))) = false := by
        have : ((f.options.length : ℚ) + 1) ≠ 0 := by positivity
        simp [falsy, this]
      have hlt : jsLt (.fin ((f.options.length : ℚ) + 1)) (.fin 1) = false := by
        have hge : (1 : ℚ) ≤ (f.options.length : ℚ) := by exact_mod_cast hlen
        simp only [jsLt, decide_eq_false_iff_not, not_lt]
        linarith
      have hgt : jsGt (.fin ((f.options.length : ℚ) + 1))
          (.fin (f.options.length : ℚ)) = true := by
        simp [jsGt, jsLt]
      have hv : Field.validate f (.vNum (.fin ((f.options.length : ℚ) + 1)))
          = .err ("Choose a number between 1 and " ++ toString f.options.length) := by
        simp [Field.validate, hk, choiceValidate, baseValidate, requiredMissing,
          hnf, hreq, hlt, hgt]
      simp only [Field.setValue, hk]
      rw [hguard2]
      simp [setValueBase, hv]
      all_goals exact hk

/-- C4 amended witness: on a required two-option choice field, setValue(1)
    equals setValue of the first option value and stores it, and setValue(0)
    and setValue(3) fail with the range reason. -/
theorem C4_amended_witness :
    Field.setValue choiceReqEx (.vNum (.fin (1 : ℚ)))
        = Field.setValue choiceReqEx (.vStr "a")
      ∧ Field.setValue choiceReqEx (.vNum (.fin (1 : ℚ)))
        = some (true, { choiceReqEx with value := .vStr "a", error := none })
      ∧ Field.setValue choiceReqEx (.vNum (.fin 0))
        = some (false, { choiceReqEx with
            error := some "Choose a number between 1 and 2" })
      ∧ Field.setValue choiceReqEx (.vNum (.fin ((2 : ℚ) + 1)))
        = some (false, { choiceReqEx with
            error := some "Choose a number between 1 and 2" }) := by
  have h := C4_amended choiceReqEx 1 (.plain "a") rfl le_rfl (by decide) rfl
  refine ⟨h.1, h.2.1 (Or.inl (by decide)), ?_, ?_⟩
  · exact (h.2.2 rfl).1
  · exact (h.2.2 rfl).2

/-- Whenever a finite coerced token passes the range guard and is integral,
    the option lookup succeeds; consequently the resolution loop equals the
    filterMap of the single-token resolution on safe token lists. -/
theorem mcResolve_safe (opts : List JsOpt) (ts : List String)
    (h : ∀ t ∈ ts, tokSafeB (strToNumber t) = true) :
    mcResolve opts ts = some (ts.filterMap (resolveTok opts)) := by
  induction ts with
  | nil => rfl
  | cons t ts ih =>
    have ht := h t (List.mem_cons_self t ts)
    have hrest : ∀ x ∈ ts, tokSafeB (strToNumber x) = true :=
      fun x hx => h x (List.mem_cons_of_mem t hx)
    rw [List.filterMap_cons]
    cases hg : (strToNumber t != .nan && jsGe (strToNumber t) (.fin 1)
        && jsLe (strToNumber t) (.fin (opts.length : ℚ))) with
    | false =>
      have hr : resolveTok opts t = none := by
        unfold resolveTok
        rw [hg]
        simp
      rw [hr]
      simp only [mcResolve]
      rw [hg]
      simp only [Bool.false_eq_true, if_false]
      exact ih hrest
    | true =>
      obtain ⟨q, hq⟩ : ∃ q : ℚ, strToNumber t = .fin q := by
        cases hn : strToNumber t with
        | fin q => exact ⟨q, rfl⟩
        | nan => rw [hn] at hg; simp at hg
        | posInf => rw [hn] at hg; simp [jsGe, jsLe, jsLt] at hg
        | negInf => rw [hn] at hg; simp [jsGe, jsLe, jsLt] at hg
      have hgq := hg
      rw [hq] at hgq
      simp only [Bool.and_eq_true] at hgq
      obtain ⟨⟨-, hge'⟩, hle'⟩ := hgq
      rw [hq] at ht
      simp only [tokSafeB, beq_iff_eq] at ht
      have hge : (1 : ℚ) ≤ q := by
        simpa [jsGe, jsLt, not_lt] using hge'
      have hle : q ≤ (opts.length : ℚ) := by
        simpa [jsLe, jsGe, jsLt, not_lt] using hle'
      have hqint : q = ((q.num : ℤ) : ℚ) := by
        conv_lhs => rw [← Rat.num_div_den q, ht]
        norm_num
      have hnum1 : 1 ≤ q.num := by
        rw [hqint] at hge
        exact_mod_cast hge
      have hnuml : q.num ≤ (opts.length : ℤ) := by
        rw [hqint] at hle
        exact_mod_cast hle
      have hsub : jsSubOne (strToNumber t) = .fin (((q.num - 1 : ℤ)) : ℚ) := by
        rw [hq, jsSubOne_fin, hqint]
        norm_num
      obtain ⟨o, ho⟩ : ∃ o, arrGetNum opts (jsSubOne (strToNumber t)) = some o := by
        rw [hsub]
        simp only [arrGetNum, Rat.num_intCast, Rat.den_intCast]
        rw [if_pos ⟨trivial, by omega, by omega⟩]
        cases hgo : opts.get? (q.num - 1).toNat with
        | none =>
          exfalso
          have := List.get?_eq_none.mp hgo
          omega
        | some o => exact ⟨o, rfl⟩
      have hr : resolveTok opts t = some (optValue o) := by
        unfold resolveTok
        rw [hg]
        simp [ho]
      rw [hr]
      simp only [mcResolve]
      rw [hg]
      simp only [if_true, ho, ih hrest]
      rfl

/-- C5: on every MultipleChoice field, setValue on a delimiter-separated
    token string whose numeric tokens are integral (non-numeric tokens are
    allowed and dropped, as are out-of-range indices) resolves each in-range
    1-based index to the corresponding option value, and the call fails
    exactly when the resulting count violates minChoices or maxChoices,
    with the stated reasons; otherwise the resolved sequence is stored. -/
theorem C5_multiple_choice_tokens (f : Field) (s : String)
    (hk : f.kind = .multipleChoice)
    (hs : ∀ t ∈ splitTokens s, tokSafeB (strToNumber t) = true) :
    (∀ x ∈ (splitTokens s).filterMap (resolveTok f.options),
        x ∈ validOptionValues f)
      ∧ (f.minChoices ≤ ((splitTokens s).filterMap (resolveTok f.options)).length
          ∧ ((splitTokens s).filterMap (resolveTok f.options)).length ≤ f.maxChoices →
          Field.setValue f (.vStr s) = some (true, { f with
            value := .vList ((splitTokens s).filterMap (resolveTok f.options)),
            error := none }))
      ∧ (((splitTokens s).filterMap (resolveTok f.options)).length < f.minChoices →
          Field.setValue f (.vStr s) = some (false, { f with
            error := some ("Select at least " ++ toString f.minChoices
              ++ " option(s)") }))
      ∧ (f.minChoices ≤ ((splitTokens s).filterMap (resolveTok f.options)).length →
          f.maxChoices < ((splitTokens s).filterMap (resolveTok f.options)).length →
          Field.setValue f (.vStr s) = some (false, { f with
            error := some ("Select maximum " ++ toString f.maxChoices
              ++ " option(s)") })) := by
  have hmem : ∀ x ∈ (splitTokens s).filterMap (resolveTok f.options),
      x ∈ validOptionValues f := by
    intro x hx
    obtain ⟨t, -, hres⟩ := List.mem_filterMap.mp hx
    unfold resolveTok at hres
    split at hres
    · obtain ⟨o, ho, hxo⟩ := Option.map_eq_some'.mp hres
      have hoin : o ∈ f.options := by
        unfold arrGetNum at ho
        split at ho
        · split at ho
          · exact List.get?_mem ho
          · exact absurd ho (by simp)
        · exact absurd ho (by simp)
      exact hxo ▸ List.mem_map_of_mem optValue hoin
    · exact absurd hres (by simp)
  have hsv : Field.setValue f (.vStr s)
      = some (setValueBase f (.vList ((splitTokens s).filterMap
          (resolveTok f.options)))) := by
    simp only [Field.setValue, hk]
    rw [mcResolve_safe f.options (splitTokens s) hs]
  have hall : ((splitTokens s).filterMap (resolveTok f.options)).all
      (fun c => (validOptionValues f).contains c) = true := by
    rw [List.all_eq_true]
    intro x hx
    simp [hmem x hx]
  refine ⟨hmem, ?_, ?_, ?_⟩
  · rintro ⟨hmin, hmax⟩
    rw [hsv]
    have hv : Field.validate f (.vList ((splitTokens s).filterMap
        (resolveTok f.options))) = .ok := by
      simp only [Field.validate, hk, mcValidate]
      rw [if_neg (not_lt.mpr hmin), if_neg (not_lt.mpr hmax), hall]
      rfl
    simp [setValueBase, hv]
  · intro hmin
    rw [hsv]
    have hv : Field.validate f (.vList ((splitTokens s).filterMap
        (resolveTok f.options)))
        = .err ("Select at least " ++ toString f.minChoices ++ " option(s)") := by
      simp only [Field.validate, hk, mcValidate]
      rw [if_pos hmin]
    simp [setValueBase, hv]
  · intro hmin hmax
    rw [hsv]
    have hv : Field.validate f (.vList ((splitTokens s).filterMap
        (resolveTok f.options)))
        = .err ("Select maximum " ++ toString f.maxChoices ++ " option(s)") := by
      simp only [Field.validate, hk, mcValidate]
      rw [if_neg (not_lt.mpr hmin), if_pos hmax]
    simp [setValueBase, hv]

/-- C5 witness: on the required five-option field, setValue of the token
    string 1,3 stores the values of options one and three and succeeds. -/
theorem C5_multiple_choice_tokens_witness :
    Field.setValue mc5FieldEx (.vStr "1,3")
      = some (true, { mc5FieldEx with value := .vList ["A", "C"], error := none }) := by
  have h := (C5_multiple_choice_tokens mc5FieldEx "1,3" rfl (by decide)).2.1
  have hv : (splitTokens "1,3").filterMap (resolveTok mc5FieldEx.options)
      = ["A", "C"] := by rfl
  rw [hv] at h
  exact h ⟨by decide, by decide⟩

/-- Clearing value and error commutes with the base setValue: both outcomes
    only touch the value and error slots. -/
theorem setValueBase_clear (f : Field) (v : Value) :
    ({ (setValueBase f v).2 with value := .vNull, error := none } : Field)
      = { f with value := .vNull, error := none } := by
  unfold setValueBase
  cases Field.validate f v <;> rfl

/-- Clearing value and error commutes with every setValue variant. -/
theorem setValue_clear {f : Field} {v : Value} {b : Bool} {f2 : Field}
    (h : Field.setValue f v = some (b, f2)) :
    ({ f2 with value := .vNull, error := none } : Field)
      = { f with value := .vNull, error := none } := by
  unfold Field.setValue at h
  repeat' split at h
  all_goals
    first
      | exact Option.noConfusion h
      | (have h2 := congrArg Prod.snd (Option.some.inj h)
         dsimp at h2
         subst h2
         first
           | exact setValueBase_clear f _
           | rfl)

/-- Writing back the element already stored at an index leaves a list
    unchanged. -/
theorem list_set_get_same {α : Type} (l : List α) (n : Nat) (x : α)
    (h : l.get? n = some x) : l.set n x = l := by
  induction l generalizing n with
  | nil => simp at h
  | cons a t ih =>
    cases n with
    | zero =>
      simp only [List.get?] at h
      cases h
      rfl
    | succ m =>
      simp only [List.get?] at h
      simp only [List.set]
      rw [ih m h]

/-- Updating an index with an element that maps equally leaves the mapped
    list unchanged. -/
theorem map_listSetI {α β : Type} (g : α → β) (l : List α) (i : Int) (x a : α)
    (hget : listGetI l i = some a) (hx : g x = g a) :
    (listSetI l i x).map g = l.map g := by
  unfold listGetI at hget
  unfold listSetI
  by_cases h0 : 0 ≤ i
  · rw [if_pos h0] at hget ⊢
    rw [List.map_set, hx]
    apply list_set_get_same
    rw [List.get?_map, hget]
    rfl
  · rw [if_neg h0] at hget
    exact absurd hget (by simp)

/-- start never changes the step list. -/
theorem start_steps_eq (sh : Shell) : (Shell.start sh).1.steps = sh.steps := by
  unfold Shell.start
  repeat' split
  all_goals rfl

/-- back never changes the step list. -/
theorem back_steps_eq (sh : Shell) : (Shell.back sh).1.steps = sh.steps := by
  unfold Shell.back
  repeat' split
  all_goals rfl

/-- continue never changes the step list. -/
theorem continueCmd_steps_eq (sh : Shell) :
    (Shell.continueCmd sh).1.steps = sh.steps := by
  unfold Shell.continueCmd
  repeat' split
  all_goals rfl

/-- submit never changes the step list. -/
theorem submit_steps_eq (sh : Shell) : (Shell.submit sh).1.steps = sh.steps := by
  unfold Shell.submit
  repeat' split
  all_goals rfl

/-- a firing advance timer never changes the step list. -/
theorem fireAdvance_steps_eq (sh : Shell) :
    (Shell.fireAdvance sh).steps = sh.steps := by
  unfold Shell.fireAdvance
  repeat' split
  all_goals rfl

/-- Clearing a step twice is the same as clearing it once. -/
theorem clearStep_idem (st : StepS) : clearStep (clearStep st) = clearStep st := rfl

/-- reset leaves the cleared projection of the step list unchanged. -/
theorem reset_steps_clear (sh : Shell) :
    (Shell.reset sh).steps.map clearStep = sh.steps.map clearStep := by
  show (sh.steps.map clearStep).map clearStep = sh.steps.map clearStep
  rw [List.map_map]
  exact List.map_congr_left fun st _ => clearStep_idem st

/-- The state of a command that returned normally, as the first pair
    component. -/
theorem pair_state {sh sh2 : Shell} {m1 m2 : Option String}
    (h : some ((sh, m1) : Shell × Option String) = some (sh2, m2)) : sh = sh2 :=
  congrArg Prod.fst (Option.some.inj h)

/-- answer leaves the cleared projection of the step list unchanged. -/
theorem answer_clear (sh sh2 : Shell) (v : Value) (out : Option String)
    (h : Shell.answer sh v = some (sh2, out)) :
    sh2.steps.map clearStep = sh.steps.map clearStep := by
  unfold Shell.answer at h
  repeat' split at h
  all_goals
    first
      | exact Option.noConfusion h
      | (cases pair_state h; rfl)
      | (cases pair_state h
         dsimp only
         apply map_listSetI clearStep sh.steps sh.currentStepIndex _ _ (by assumption)
         show clearStep _ = clearStep _
         unfold clearStep
         dsimp only
         congr 1
         exact setValue_clear (by assumption))

/-- skip leaves the cleared projection of the step list unchanged. -/
theorem skip_clear (sh sh2 : Shell) (out : Option String)
    (h : Shell.skip sh = some (sh2, out)) :
    sh2.steps.map clearStep = sh.steps.map clearStep := by
  unfold Shell.skip at h
  repeat' split at h
  all_goals
    first
      | exact Option.noConfusion h
      | (cases pair_state h; rfl)
      | (cases pair_state h
         dsimp only
         apply map_listSetI clearStep sh.steps sh.currentStepIndex _ _ (by assumption)
         rfl)

/-- Every command that returns normally leaves the cleared projection of
    the step list unchanged: commands only ever write the value, error and
    answered slots. -/
theorem runCmd_clear (sh sh2 : Shell) (c : Cmd) (out : Option String)
    (h : runCmd sh c = some (sh2, out)) :
    sh2.steps.map clearStep = sh.steps.map clearStep := by
  cases c with
  | start =>
    have h2 := congrArg Prod.fst (Option.some.inj h)
    dsimp at h2
    rw [← h2, start_steps_eq]
  | answer v => exact answer_clear sh sh2 v out h
  | skip => exact skip_clear sh sh2 out h
  | back =>
    have h2 := congrArg Prod.fst (Option.some.inj h)
    dsimp at h2
    rw [← h2, back_steps_eq]
  | reset =>
    have h2 := congrArg Prod.fst (Option.some.inj h)
    dsimp at h2
    rw [← h2]
    exact reset_steps_clear sh
  | help =>
    have h2 := congrArg Prod.fst (Option.some.inj h)
    dsimp at h2
    rw [← h2]
    rfl
  | cont =>
    have h2 := congrArg Prod.fst (Option.some.inj h)
    dsimp at h2
    rw [← h2, continueCmd_steps_eq]
  | submit =>
    have h2 := congrArg Prod.fst (Option.some.inj h)
    dsimp at h2
    rw [← h2, submit_steps_eq]
  | fire =>
    have h2 := congrArg Prod.fst (Option.some.inj h)
    dsimp at h2
    rw [← h2, fireAdvance_steps_eq]

/-- Whole command sequences leave the cleared projection of the step list
    unchanged. -/
theorem runSeq_clear (cmds : List Cmd) : ∀ (sh sh2 : Shell),
    runSeq sh cmds = some sh2 →
    sh2.steps.map clearStep = sh.steps.map clearStep := by
  induction cmds with
  | nil =>
    intro sh sh2 h
    cases Option.some.inj h
    rfl
  | cons c cs ih =>
    intro sh sh2 h
    unfold runSeq at h
    cases hr : runCmd sh c with
    | none => rw [hr] at h; exact Option.noConfusion h
    | some p =>
      rw [hr] at h
      exact (ih p.1 sh2 h).trans (runCmd_clear sh p.1 c p.2 (by rw [hr]))

/-- C6 amended: reset unconditionally returns the session to the welcome
    screen with every answered flag, field value and field error cleared.
    When no field of the configuration carries a default value, the cleared
    state has exactly the step list of a freshly constructed form, so a
    subsequent start selects the same first visible step and later
    traversal sees the same visibility; with a non-null defaultValue
    referenced by the condition of another step this fails, because reset
    clears values to null instead of restoring defaults (see the
    counterexample). -/
theorem C6_amended (cfg : List FieldCfg) (cmds : List Cmd) (sh : Shell)
    (hd : ∀ c ∈ cfg, c.defaultValue = none)
    (hrun : runSeq (mkShell cfg) cmds = some sh) :
    (Shell.reset sh).currentStepIndex = -1
      ∧ (Shell.reset sh).started = false
      ∧ (Shell.reset sh).completed = false
      ∧ (Shell.reset sh).helpActive = false
      ∧ (∀ st ∈ (Shell.reset sh).steps,
          st.answered = false ∧ st.field.value = .vNull ∧ st.field.error = none)
      ∧ (Shell.reset sh).steps = (mkShell cfg).steps
      ∧ (Shell.start (Shell.reset sh)).1.currentStepIndex
          = (Shell.start (mkShell cfg)).1.currentStepIndex := by
  have hclear : sh.steps.map clearStep = (mkShell cfg).steps.map clearStep :=
    runSeq_clear cmds (mkShell cfg) sh hrun
  have hmk : (mkShell cfg).steps.map clearStep = (mkShell cfg).steps := by
    show (cfg.map _).map clearStep = cfg.map _
    rw [List.map_map]
    apply List.map_congr_left
    intro c hc
    have hdc := hd c hc
    show clearStep { field := mkField c, answered := false }
      = { field := mkField c, answered := false }
    cases hck : c.kind <;>
      simp [clearStep, mkField, hdc, hck]
  have hsteps : (Shell.reset sh).steps = (mkShell cfg).steps := by
    show sh.steps.map clearStep = _
    rw [hclear, hmk]
  refine ⟨rfl, rfl, rfl, rfl, ?_, hsteps, ?_⟩
  · intro st hst
    obtain ⟨st0, -, rfl⟩ := List.mem_map.mp hst
    exact ⟨rfl, rfl, rfl⟩
  · unfold Shell.start
    simp only [show (Shell.reset sh).helpActive = false from rfl,
      show (Shell.reset sh).started = false from rfl,
      show (mkShell cfg).helpActive = false from rfl,
      show (mkShell cfg).started = false from rfl,
      Bool.false_eq_true, if_false, hsteps]
    split <;> rfl

/-- C6 amended witness: on a two-step default-free text form on which one
    answer was given, reset clears the state and a subsequent start selects
    the same first step as the fresh form. -/
theorem C6_amended_witness :
    (Shell.reset (Shell.start (mkShell plainCfg)).1).steps = (mkShell plainCfg).steps
      ∧ (Shell.start (Shell.reset (Shell.start (mkShell plainCfg)).1)).1.currentStepIndex
        = (Shell.start (mkShell plainCfg)).1.currentStepIndex := by
  have h := C6_amended plainCfg [.start] (Shell.start (mkShell plainCfg)).1
    (by intro c hc; fin_cases hc <;> rfl) rfl
  exact ⟨h.2.2.2.2.2.1, h.2.2.2.2.2.2⟩

end FS
